import Mathlib

set_option maxRecDepth 4000

/-
Verification development for the NEAR Intents swap subsystem of this
repository (backend/near_intent/near_intents/near_intents.py and
backend/near_intent/near_intents/ai_agent.py).

The Python code performs its amount arithmetic on IEEE-754 binary64
values (CPython floats).  We embed those values exactly: a finite double
is a dyadic rational m * 2^e, represented by the pair (m, e) : Int × Int.
Rounding to nearest-even at 53 significant bits is implemented with
exact integer arithmetic, so every theorem below is about the precise
bit-for-bit behaviour of the source, with no floating-point type in the
embedding.  All inputs arising in the claims are well inside the normal
range of binary64, so overflow and subnormal handling are not modelled.
-/

/-- A finite binary64 value, exactly: the dyadic rational `fst * 2 ^ snd`. -/
abbrev D : Type := Int × Int

/-- Fuel-based bit length of a natural number (number of binary digits). -/
def bl : Nat → Nat → Nat
  | 0, _ => 0
  | f + 1, n => if n = 0 then 0 else bl f (n / 2) + 1

/-- Bit length with enough fuel for every number appearing here. -/
def blen (n : Nat) : Nat := bl 1000 n

/-- Round the positive rational `a / b` (with `b > 0`) to 53 significant
bits, nearest-even — the IEEE-754 binary64 rounding used by CPython for
float literals, int-to-float conversion, multiplication and division.
Returns the mantissa (a natural number) and the binary exponent. -/
def rndPosAux (a b : Nat) : Nat × Int :=
  if a = 0 then (0, 0)
  else
    let d : Int := (blen a : Int) - (blen b : Int)
    let e : Int := if a * 2 ^ (-d).toNat ≥ b * 2 ^ d.toNat then d else d - 1
    let f : Int := e - 52
    let num := a * 2 ^ (-f).toNat
    let den := b * 2 ^ f.toNat
    let q := num / den
    let r := num % den
    let q' := if 2 * r > den then q + 1
      else if 2 * r < den then q
      else if q % 2 = 0 then q else q + 1
    (q', f)

/-- Round the rational `a / b` (with `b > 0`) to the nearest binary64
value; IEEE rounding is symmetric in the sign. -/
def roundRat (a : Int) (b : Nat) : D :=
  let p := rndPosAux a.natAbs b
  (if a < 0 then -(p.1 : Int) else (p.1 : Int), p.2)

/-- The double 0.0. -/
def dZero : D := (0, 0)

/-- `float(n)` for an integer `n`: conversion of a Python int to a double. -/
def dOfInt (n : Int) : D := roundRat n 1

/-- The double denoted by the decimal literal `a / b` (e.g. `dLit 3 2`
is Python's `1.5`, `dLit 1 1000000` is `0.000001`): CPython parses
decimal literals with correct rounding to nearest. -/
def dLit (a : Int) (b : Nat) : D := roundRat a b

/-- Exact product of two doubles, rounded back to binary64: Python's
`x * y` on floats. -/
def dmul (x y : D) : D :=
  let m := x.1 * y.1
  let e := x.2 + y.2
  if e ≥ 0 then roundRat (m * 2 ^ e.toNat) 1 else roundRat m (2 ^ (-e).toNat)

/-- Exact quotient of two doubles, rounded back to binary64: Python's
`x / y` on floats (`y` nonzero). -/
def ddiv (x y : D) : D :=
  let e := x.2 - y.2
  let num := x.1 * (if e ≥ 0 then (2 : Int) ^ e.toNat else 1)
  let den := y.1 * (if e < 0 then (2 : Int) ^ (-e).toNat else 1)
  if den < 0 then roundRat (-num) den.natAbs else roundRat num den.natAbs

/-- Exact comparison `x < y` of two doubles (Python float `<`). -/
def dlt (x y : D) : Bool :=
  decide (x.1 * 2 ^ (x.2 - min x.2 y.2).toNat < y.1 * 2 ^ (y.2 - min x.2 y.2).toNat)

/-- Exact comparison `x ≤ y` of two doubles (Python float `<=`). -/
def dle (x y : D) : Bool :=
  decide (x.1 * 2 ^ (x.2 - min x.2 y.2).toNat ≤ y.1 * 2 ^ (y.2 - min x.2 y.2).toNat)

/-- Exact equality test of two doubles as values (Python float `==`). -/
def deq (x y : D) : Bool :=
  decide (x.1 * 2 ^ (x.2 - min x.2 y.2).toNat = y.1 * 2 ^ (y.2 - min x.2 y.2).toNat)

/-- Python `int(x)` on a float: truncation toward zero. -/
def dIntTrunc (x : D) : Int :=
  if x.2 ≥ 0 then x.1 * 2 ^ x.2.toNat
  else if 0 ≤ x.1 then (x.1.natAbs / 2 ^ (-x.2).toNat : Nat)
  else -((x.1.natAbs / 2 ^ (-x.2).toNat : Nat) : Int)

/-- Decimal digits of a natural number, accumulator style with fuel. -/
def digitsAux : Nat → Nat → List Char → List Char
  | 0, _, acc => acc
  | f + 1, n, acc =>
    let c := Char.ofNat (48 + n % 10)
    if n < 10 then c :: acc else digitsAux f (n / 10) (c :: acc)

/-- Python `str(n)` for a natural number. -/
def pyStr (n : Nat) : String := String.mk (digitsAux 1000 n [])

/-- Python `str(n)` for an integer. -/
def pyIntStr (n : Int) : String :=
  if n < 0 then "-" ++ pyStr n.natAbs else pyStr n.natAbs

/-- `to_decimals(amount, decimals)` from near_intents.py:
`str(int(amount * 10**decimals))`, where `amount` is a CPython float and
`10**decimals` is a Python int that `float.__mul__` converts to a double
before the (binary64) multiplication. -/
def to_decimals (amount : D) (decimals : Nat) : String :=
  pyIntStr (dIntTrunc (dmul amount (dOfInt (10 ^ decimals))))

/-
ASSET_MAP from near_intents.py: the two supported symbols with their
token ids and decimal counts.
-/

/-- A supported asset symbol (the keys of ASSET_MAP). -/
inductive Token : Type
  | USDC
  | NEAR
deriving DecidableEq

/-- `ASSET_MAP[token]["decimals"]`. -/
def decimalsOf : Token → Nat
  | .USDC => 6
  | .NEAR => 24

/-- `ASSET_MAP[token]["token_id"]`. -/
def token_id : Token → String
  | .USDC => "a0b86991c6218b36c1d19d4a2e9eb0ce3606eb48.factory.bridge.near"
  | .NEAR => "wrap.near"

/-- `ASSET_MAP[token]["omft"]`: only USDC has one. -/
def omft : Token → Option String
  | .USDC => some "eth-0xa0b86991c6218b36c1d19d4a2e9eb0ce3606eb48.omft.near"
  | .NEAR => none

/-- `get_asset_id(token)` from near_intents.py. -/
def get_asset_id : Token → String
  | .NEAR => "near"
  | .USDC => "nep141:a0b86991c6218b36c1d19d4a2e9eb0ce3606eb48.factory.bridge.near"

/-
Quote / Commitment structures (near_intents.py).  The source stores the
deadline as a string: `str(int(time.time() * 1000) + 120000)` in
create_token_diff_quote, and the ISO timestamp "2025-12-31T11:59:59.000Z"
in intent_withdraw.  We model the deadline by its epoch-millisecond
value so that temporal claims are statable; the withdraw constant below
is the epoch-millisecond value of that ISO instant.
-/

/-- An entry of a Quote's `intents` list: either a `token_diff` intent
(create_token_diff_quote) or an `ft_withdraw` intent (intent_withdraw). -/
inductive IntentS : Type
  | tokenDiff (diff : List (String × String))
  | ftWithdraw (token : String) (receiver_id : String) (amount : String)
      (memo : Option String)
deriving DecidableEq

/-- The Quote TypedDict of near_intents.py (deadline in epoch ms). -/
structure QuoteS : Type where
  nonce : String
  signer_id : String
  verifying_contract : String
  deadlineMs : Nat
  intents : List IntentS
deriving DecidableEq

/-- The Commitment returned by sign_quote: standard "raw_ed25519" and the
payload quote.  In the source the payload is `json.dumps(quote)` and the
commitment also carries the ed25519 signature and public key; the
signature bytes are opaque cryptography with no claim about them, so the
payload is kept structurally and the key material is not modelled. -/
structure CommitmentS : Type where
  standard : String
  payload : QuoteS
deriving DecidableEq

/-- A Python dict literal with two entries: later duplicate keys
overwrite earlier ones, as in CPython. -/
def mkDict2 (k1 v1 k2 v2 : String) : List (String × String) :=
  if k1 = k2 then [(k1, v2)] else [(k1, v1), (k2, v2)]

/-- `create_token_diff_quote(account, token_in, amount_in, token_out,
amount_out)` from near_intents.py.  The random 256-bit nonce and the
wall clock `time.time() * 1000` are inputs of the model (`nonce`,
`nowMs`).  Amounts are the CPython floats the source produces with
`float(...)`. -/
def create_token_diff_quote (account_id nonce : String) (nowMs : Nat)
    (token_in : Token) (amount_in : D) (token_out : Token) (amount_out : D) :
    CommitmentS :=
  { standard := "raw_ed25519"
    payload :=
      { nonce := nonce
        signer_id := account_id
        verifying_contract := "intents.near"
        deadlineMs := nowMs + 120000
        intents :=
          [IntentS.tokenDiff
            (mkDict2 (get_asset_id token_in)
              ("-" ++ to_decimals amount_in (decimalsOf token_in))
              (get_asset_id token_out)
              (to_decimals amount_out (decimalsOf token_out)))] } }

/-
IntentRequest builder (near_intents.py).
-/

/-- The IntentRequest object: `_asset_in` holds the asset id and the
base-unit amount string; `_asset_out` holds the asset id and an optional
base-unit amount string (None when no output amount was kept). -/
structure IntentRequestS : Type where
  min_deadline_ms : Nat
  asset_in : Option (String × String)
  asset_out : Option (String × Option String)
deriving DecidableEq

/-- `IntentRequest()` with the default `min_deadline_ms=120000`. -/
def emptyIntentRequest : IntentRequestS :=
  { min_deadline_ms := 120000, asset_in := none, asset_out := none }

/-- `IntentRequest.set_asset_in(asset_name, amount)`. -/
def set_asset_in (r : IntentRequestS) (tok : Token) (amount : D) :
    IntentRequestS :=
  let entry := (get_asset_id tok, to_decimals amount (decimalsOf tok))
  { r with asset_in := some entry }

/-- `IntentRequest.set_asset_out(asset_name, amount=None)`.  The source
keeps `to_decimals(amount, ...) if amount else None`: Python truthiness,
so a supplied amount equal to 0.0 is dropped exactly like None. -/
def set_asset_out (r : IntentRequestS) (tok : Token) (amount : Option D) :
    IntentRequestS :=
  let amt : Option String :=
    match amount with
    | some a =>
      if deq a dZero then none else some (to_decimals a (decimalsOf tok))
    | none => none
  { r with asset_out := some (get_asset_id tok, amt) }

/-- The error conditions raised by the modelled code paths (all surface
as ValueError / KeyError in the source; names here follow the raise
sites). -/
inductive Err : Type
  | incompleteRequest
  | jsonDecodeError
  | nonPositiveAmount
  | insufficientBalance
  | noOptions
  | noViableOption
  | keyErrorAmountOut
  | keyErrorQuoteHash
deriving DecidableEq

/-- The flat object produced by `IntentRequest.serialize()`. -/
structure SerMsg : Type where
  defuse_asset_identifier_in : String
  defuse_asset_identifier_out : String
  exact_amount_in : String
  min_deadline_ms : Nat
  exact_amount_out : Option String
deriving DecidableEq

/-- `IntentRequest.serialize()`: raises ValueError ("Both input and
output assets must be specified") unless both assets are set (the stored
asset dicts are nonempty, hence truthy, whenever set); the
`exact_amount_out` key is added only when the stored output amount is
not None. -/
def serializeReq (r : IntentRequestS) : Except Err SerMsg :=
  match r.asset_in, r.asset_out with
  | some ain, some aout =>
    .ok { defuse_asset_identifier_in := ain.1
          defuse_asset_identifier_out := aout.1
          exact_amount_in := ain.2
          min_deadline_ms := r.min_deadline_ms
          exact_amount_out := aout.2 }
  | _, _ => .error .incompleteRequest

/-
Solver bus client (near_intents.py fetch_options / publish_intent) and
option selection.
-/

/-- An option object returned by the solver bus.  `amount_out` is the
double that Python's `float(...)` yields for the option's amount_out
value when the field is present; `quote_hash` is the option's quote hash
when present; `other` records whether the object carries any further
fields (this matters because CPython's `not d` is True exactly for the
empty dict, and select_best_option tests `not best_option`). -/
structure Opt : Type where
  amount_out : Option D
  quote_hash : Option String
  other : Bool
deriving DecidableEq

/-- Python truthiness of the option dict: true iff it has at least one
field. -/
def otruthy (o : Opt) : Bool := o.amount_out.isSome || o.quote_hash.isSome || o.other

/-- `float(option.get("amount_out", 0))`: the parsed amount, 0.0 when
the field is missing. -/
def parseAmt (o : Opt) : D := o.amount_out.getD dZero

/-- One iteration of the loop in `select_best_option`: the running best
is replaced when `not best_option` (None, or a falsy empty dict) or when
the candidate's parsed amount_out is strictly greater. -/
def selStep (best : Option Opt) (o : Opt) : Option Opt :=
  match best with
  | none => some o
  | some b => if !otruthy b || dlt (parseAmt b) (parseAmt o) then some o else some b

/-- `select_best_option(options)` from near_intents.py: returns None on
an empty list, else the result of the scan. -/
def select_best_option (options : List Opt) : Option Opt :=
  options.foldl selStep none

/-- The loop of `select_best_option` once the running best is a truthy
(non-empty) object: a plain first-wins argmax scan keeping the strictly
greater candidate. -/
def gsel (b : Opt) (l : List Opt) : Opt :=
  l.foldl (fun x o => if dlt (parseAmt x) (parseAmt o) then o else x) b

/-- The body of the solver bus HTTP response once parsed as JSON:
`result` is the value of the "result" key when present. -/
structure BodyJson : Type where
  result : Option (List Opt)
deriving DecidableEq

/-- A raw HTTP response from the solver bus: status code and the parsed
JSON body, `none` when the body is not valid JSON. -/
structure BusHttpResp : Type where
  status : Nat
  body : Option BodyJson
deriving DecidableEq

/-- `fetch_options(request)` from near_intents.py, network step: the
source runs `response.json()` — which raises JSONDecodeError (a
ValueError) on a malformed body — and then
`response_json.get("result", [])`.  The HTTP status code is never
consulted. -/
def fetch_options (resp : BusHttpResp) : Except Err (List Opt) :=
  match resp.body with
  | none => .error .jsonDecodeError
  | some b => .ok (b.result.getD [])

/-
intent_withdraw (near_intents.py).
-/

/-- Epoch milliseconds of the hardcoded withdraw deadline
"2025-12-31T11:59:59.000Z". -/
def WITHDRAW_DEADLINE_MS : Nat := 1767182399000

/-- Network interactions of a run, in order: a `quote` RPC to the solver
bus, a signing operation (sign_quote), or a `publish_intent` RPC to the
solver bus.  Chain RPCs (account state, storage registration) are not
solver-bus calls and are not recorded. -/
inductive Ev : Type
  | quoteCall (req : SerMsg)
  | signEv (q : QuoteS)
  | publishCall (c : CommitmentS) (quote_hashes : List String)
deriving DecidableEq

/-- Is the event a signing operation? -/
def evIsSign : Ev → Bool
  | .signEv _ => true
  | _ => false

/-- Is the event a publish_intent call to the solver bus? -/
def evIsPublish : Ev → Bool
  | .publishCall _ _ => true
  | _ => false

/-- `intent_withdraw(account, destination_address, token, amount,
network)` from near_intents.py.  `nowMs` is the wall clock at the moment
of execution; the source consults no clock here, so the parameter is
unused — the quote is built with the fixed deadline and published
unconditionally.  For a non-"near" network the source indexes
`ASSET_MAP[token]["omft"]`, a KeyError for tokens without one; the
publish response itself is bus-defined and not modelled. -/
def intent_withdraw (_nowMs : Nat) (account_id nonce destination : String)
    (token : Token) (amount : D) (network : String) :
    Except Unit (CommitmentS × List Ev) :=
  let base : IntentS :=
    .ftWithdraw (token_id token) destination
      (to_decimals amount (decimalsOf token)) none
  let intentE : Except Unit IntentS :=
    if network = "near" then .ok base
    else
      match omft token with
      | some o =>
        .ok (.ftWithdraw o o (to_decimals amount (decimalsOf token))
          ("WITHDRAW_TO:" ++ destination))
      | none => .error ()
  match intentE with
  | .error e => .error e
  | .ok it =>
    let q : QuoteS :=
      { nonce := nonce
        signer_id := account_id
        verifying_contract := "intents.testnet"
        deadlineMs := WITHDRAW_DEADLINE_MS
        intents := [it] }
    let c : CommitmentS := { standard := "raw_ed25519", payload := q }
    .ok (c, [Ev.signEv q, Ev.publishCall c []])

/-- Does the run publish a commitment whose quote deadline is already in
the past at the given instant?  (Used to state the stale-quote claim.) -/
def publishesStale (r : Except Unit (CommitmentS × List Ev)) (nowMs : Nat) : Bool :=
  match r with
  | .ok (c, tr) =>
    tr.contains (Ev.publishCall c []) && decide (c.payload.deadlineMs < nowMs)
  | .error _ => false

/-
Swap orchestration: intent_swap (near_intents.py) and
AIAgent.swap_near_to_token (ai_agent.py).  Network effects are modelled
by parameters (the chain-reported account balance, the solver bus
response, the wall clock, the random nonce) and the solver-bus
interactions of a run are returned as an event trace.  The solver bus is
deterministic within one run: both fetch_options calls of the agent path
see the same response.
-/

/-- `float(account_state["amount"]) / 10**24` from ai_agent.py: the
yoctoNEAR amount reported by the chain, converted to a double and then
divided (in binary64) by float(10^24). -/
def balanceNear (stateAmount : Nat) : D :=
  ddiv (dOfInt stateAmount) (dOfInt (10 ^ 24))

/-- `intent_swap(account, token_in, amount_in, token_out)` from
near_intents.py.  Storage registration is a chain call, not a solver-bus
call, and is not recorded.  The function serializes a request, fetches
options, selects the best one, raises unless the selection is truthy,
builds and signs the token_diff quote (a signing operation), and
publishes it with the selected option's quote_hash; missing
"amount_out" or "quote_hash" keys on the selected option raise KeyError
at the corresponding step.  `pubResp` is the bus response to
publish_intent. -/
def intent_swapM (account_id nonce : String) (nowMs : Nat)
    (busResp : BusHttpResp) (pubResp : String)
    (token_in : Token) (amount_in : D) (token_out : Token) :
    Except Err String × List Ev :=
  let req := set_asset_out (set_asset_in emptyIntentRequest token_in amount_in)
    token_out none
  match serializeReq req with
  | .error e => (.error e, [])
  | .ok ser =>
    match fetch_options busResp with
    | .error e => (.error e, [Ev.quoteCall ser])
    | .ok options =>
      match select_best_option options with
      | none => (.error .noViableOption, [Ev.quoteCall ser])
      | some b =>
        if !otruthy b then (.error .noViableOption, [Ev.quoteCall ser])
        else
          match b.amount_out with
          | none => (.error .keyErrorAmountOut, [Ev.quoteCall ser])
          | some aout =>
            let c := create_token_diff_quote account_id nonce nowMs
              token_in amount_in token_out aout
            match b.quote_hash with
            | none =>
              (.error .keyErrorQuoteHash, [Ev.quoteCall ser, Ev.signEv c.payload])
            | some h =>
              (.ok pubResp,
                [Ev.quoteCall ser, Ev.signEv c.payload, Ev.publishCall c [h]])

/-- `AIAgent.swap_near_to_token(target_token, amount_in)` from
ai_agent.py.  Steps, in source order: reject non-positive amounts;
(target_token is a key of ASSET_MAP by the type of `target`); query the
account state and compute `balance_near`; raise "Insufficient balance"
before any solver-bus contact when `balance_near < amount_in`; build the
intent request and fetch options (first solver-bus call); raise "No swap
options available" on an empty list; select the best option (result only
logged); then run intent_swap, which fetches options again, signs, and
publishes. -/
def swap_near_to_token (account_id nonce : String) (stateAmount : Nat)
    (busResp : BusHttpResp) (pubResp : String) (nowMs : Nat)
    (target : Token) (amount_in : D) :
    Except Err String × List Ev :=
  if dle amount_in dZero then (.error .nonPositiveAmount, [])
  else if dlt (balanceNear stateAmount) amount_in then
    (.error .insufficientBalance, [])
  else
    let req := set_asset_out (set_asset_in emptyIntentRequest .NEAR amount_in)
      target none
    match serializeReq req with
    | .error e => (.error e, [])
    | .ok ser =>
      match fetch_options busResp with
      | .error e => (.error e, [Ev.quoteCall ser])
      | .ok options =>
        if options.isEmpty then (.error .noOptions, [Ev.quoteCall ser])
        else
          let inner := intent_swapM account_id nonce nowMs busResp pubResp
            .NEAR amount_in target
          (inner.1, Ev.quoteCall ser :: inner.2)

/-
Proof layer: each double (m, e) denotes the rational m * 2^e.  The
Boolean comparisons on the pair representation agree with the rational
order, which gives transitivity and sign reasoning for free.
-/

/-- The exact rational value of a double. -/
def dval (x : D) : ℚ := (x.1 : ℚ) * (2 : ℚ) ^ x.2

theorem dval_shift (x : D) (c : Int) (h : c ≤ x.2) :
    dval x = ((x.1 * 2 ^ (x.2 - c).toNat : Int) : ℚ) * (2 : ℚ) ^ c := by
  unfold dval
  push_cast
  rw [← zpow_natCast (2 : ℚ) (x.2 - c).toNat, Int.toNat_of_nonneg (by omega),
    mul_assoc, ← zpow_add₀ (by norm_num : (2 : ℚ) ≠ 0), sub_add_cancel]

theorem dlt_iff (x y : D) : dlt x y = true ↔ dval x < dval y := by
  have hx := dval_shift x (min x.2 y.2) (min_le_left _ _)
  have hy := dval_shift y (min x.2 y.2) (min_le_right _ _)
  have hpow : (0 : ℚ) < (2 : ℚ) ^ (min x.2 y.2) := by positivity
  rw [dlt, decide_eq_true_eq, hx, hy, mul_lt_mul_right hpow]
  exact_mod_cast Iff.rfl

theorem dle_iff (x y : D) : dle x y = true ↔ dval x ≤ dval y := by
  have hx := dval_shift x (min x.2 y.2) (min_le_left _ _)
  have hy := dval_shift y (min x.2 y.2) (min_le_right _ _)
  have hpow : (0 : ℚ) < (2 : ℚ) ^ (min x.2 y.2) := by positivity
  rw [dle, decide_eq_true_eq, hx, hy, mul_le_mul_right hpow]
  exact_mod_cast Iff.rfl

theorem dval_dZero : dval dZero = 0 := by simp [dval, dZero]

theorem roundRat_fst_nonneg (a : Int) (b : Nat) (h : 0 ≤ a) :
    0 ≤ (roundRat a b).1 := by
  unfold roundRat
  simp only
  split
  · omega
  · exact Int.ofNat_nonneg _

theorem dval_nonneg (x : D) (h : 0 ≤ x.1) : 0 ≤ dval x := by
  unfold dval
  have : (0 : ℚ) ≤ (x.1 : ℚ) := by exact_mod_cast h
  positivity

theorem ddiv_fst_nonneg (x y : D) (hx : 0 ≤ x.1) (hy : 0 ≤ y.1) :
    0 ≤ (ddiv x y).1 := by
  unfold ddiv
  simp only
  have hif : ∀ c : Prop, ∀ hc : Decidable c, ∀ k : Nat,
      (0 : Int) ≤ if c then (2 : Int) ^ k else 1 := by
    intro c hc k
    split <;> positivity
  have hnum : 0 ≤ x.1 *
      (if x.2 - y.2 ≥ 0 then (2 : Int) ^ (x.2 - y.2).toNat else 1) :=
    mul_nonneg hx (hif _ _ _)
  have hden : 0 ≤ y.1 *
      (if x.2 - y.2 < 0 then (2 : Int) ^ (-(x.2 - y.2)).toNat else 1) :=
    mul_nonneg hy (hif _ _ _)
  rw [if_neg (not_lt.mpr hden)]
  exact roundRat_fst_nonneg _ _ hnum

theorem balanceNear_fst_nonneg (n : Nat) : 0 ≤ (balanceNear n).1 :=
  ddiv_fst_nonneg _ _ (roundRat_fst_nonneg _ _ (by positivity))
    (roundRat_fst_nonneg _ _ (by positivity))

/-
Lemmas about the select_best_option scan.
-/

theorem selStep_truthy (b o : Opt) (hb : otruthy b = true) :
    selStep (some b) o =
      some (if dlt (parseAmt b) (parseAmt o) then o else b) := by
  cases hX : dlt (parseAmt b) (parseAmt o) <;> simp [selStep, hb, hX]

theorem foldl_selStep_truthy (l : List Opt) :
    ∀ b, otruthy b = true → (∀ o ∈ l, otruthy o = true) →
      List.foldl selStep (some b) l = some (gsel b l) := by
  induction l with
  | nil => intro b _ _; simp [gsel]
  | cons o l ih =>
    intro b hb hall
    have ho : otruthy o = true := hall o (by simp)
    have hall' : ∀ x ∈ l, otruthy x = true := fun x hx => hall x (by simp [hx])
    have hb' : otruthy (if dlt (parseAmt b) (parseAmt o) then o else b) = true := by
      split <;> assumption
    simp only [List.foldl_cons, selStep_truthy b o hb]
    exact ih _ hb' hall'

theorem gsel_first_max (l : List Opt) :
    ∀ b, ∃ l1 l2, b :: l = l1 ++ gsel b l :: l2 ∧
      (∀ x ∈ l1, dval (parseAmt x) < dval (parseAmt (gsel b l))) ∧
      (∀ x ∈ l2, dval (parseAmt x) ≤ dval (parseAmt (gsel b l))) := by
  induction l with
  | nil =>
    intro b
    exact ⟨[], [], by simp [gsel], by simp, by simp⟩
  | cons o l ih =>
    intro b
    by_cases h : dlt (parseAmt b) (parseAmt o) = true
    · have hlt : dval (parseAmt b) < dval (parseAmt o) := (dlt_iff _ _).mp h
      obtain ⟨l1, l2, hdec, h1, h2⟩ := ih o
      have hr : gsel b (o :: l) = gsel o l := by simp [gsel, h]
      rw [hr]
      have hor : dval (parseAmt o) ≤ dval (parseAmt (gsel o l)) := by
        cases l1 with
        | nil =>
          simp only [List.nil_append, List.cons.injEq] at hdec
          rw [← hdec.1]
        | cons hd tl =>
          simp only [List.cons_append, List.cons.injEq] at hdec
          have hh := h1 hd (by simp)
          rw [← hdec.1] at hh
          exact le_of_lt hh
      refine ⟨b :: l1, l2, ?_, ?_, h2⟩
      · rw [List.cons_append, ← hdec]
      · intro x hx
        rcases List.mem_cons.mp hx with rfl | hx1
        · exact lt_of_lt_of_le hlt hor
        · exact h1 x hx1
    · have hle : dval (parseAmt o) ≤ dval (parseAmt b) :=
        le_of_not_lt (fun hc => h ((dlt_iff _ _).mpr hc))
      obtain ⟨l1, l2, hdec, h1, h2⟩ := ih b
      have hr : gsel b (o :: l) = gsel b l := by simp [gsel, h]
      rw [hr]
      cases l1 with
      | nil =>
        simp only [List.nil_append, List.cons.injEq] at hdec
        refine ⟨[], o :: l2, ?_, by simp, ?_⟩
        · rw [List.nil_append, ← hdec.1, hdec.2]
        · intro x hx
          rcases List.mem_cons.mp hx with rfl | hx2
          · rw [← hdec.1]; exact hle
          · exact h2 x hx2
      | cons hd tl =>
        simp only [List.cons_append, List.cons.injEq] at hdec
        have hbr : dval (parseAmt b) < dval (parseAmt (gsel b l)) := by
          have hh := h1 hd (by simp)
          rw [← hdec.1] at hh
          exact hh
        refine ⟨b :: o :: tl, l2, ?_, ?_, h2⟩
        · conv_lhs => rw [hdec.2]
          simp
        · intro x hx
          rcases List.mem_cons.mp hx with rfl | hx'
          · exact hbr
          · rcases List.mem_cons.mp hx' with rfl | hxtl
            · exact lt_of_le_of_lt hle hbr
            · exact h1 x (List.mem_cons_of_mem hd hxtl)

theorem dlt_dZero_dZero : dlt dZero dZero = false := by decide

theorem foldl_selStep_stay (l : List Opt) :
    ∀ b, otruthy b = true → b.amount_out = none →
      (∀ o ∈ l, o.amount_out = none) →
      List.foldl selStep (some b) l = some b := by
  induction l with
  | nil => intro b _ _ _; rfl
  | cons o l ih =>
    intro b hb hbm hall
    have hom : o.amount_out = none := hall o (by simp)
    have hall' : ∀ x ∈ l, x.amount_out = none := fun x hx => hall x (by simp [hx])
    have hstep : selStep (some b) o = some b := by
      simp [selStep, hb, parseAmt, hbm, hom, dlt_dZero_dZero]
    simp only [List.foldl_cons, hstep]
    exact ih b hb hbm hall'

theorem select_all_missing (opts : List Opt) :
    opts ≠ [] → (∀ o ∈ opts, o.amount_out = none) →
      select_best_option opts =
        (opts.find? otruthy).orElse (fun _ => opts.getLast?) := by
  induction opts with
  | nil => intro h _; exact absurd rfl h
  | cons b l ih =>
    intro _ hall
    have hbm : b.amount_out = none := hall b (by simp)
    have hall' : ∀ x ∈ l, x.amount_out = none := fun x hx => hall x (by simp [hx])
    by_cases hb : otruthy b = true
    · have : select_best_option (b :: l) = some b := by
        simpa [select_best_option] using foldl_selStep_stay l b hb hbm hall'
      rw [this, List.find?_cons_of_pos _ hb]
      rfl
    · have hbf : otruthy b = false := by
        cases hq : otruthy b
        · rfl
        · exact absurd hq hb
      cases l with
      | nil =>
        rw [List.find?_cons_of_neg _ (by simp [hbf])]
        rfl
      | cons o l' =>
        have hne : (o :: l') ≠ ([] : List Opt) := by simp
        have hstep : selStep (some b) o = some o := by
          simp [selStep, hbf]
        have h0b : selStep none b = some b := rfl
        have h0o : selStep none o = some o := rfl
        have hsel : select_best_option (b :: o :: l') =
            select_best_option (o :: l') := by
          simp only [select_best_option, List.foldl_cons, h0b, h0o, hstep]
        rw [hsel, ih hne hall']
        conv_rhs => rw [List.find?_cons_of_neg _ hb, List.getLast?_cons_cons]

theorem intent_swapM_publish_fresh (account_id nonce : String) (nowMs : Nat)
    (busResp : BusHttpResp) (pubResp : String)
    (ti : Token) (ai : D) (to_ : Token) :
    ∀ c hs, Ev.publishCall c hs ∈
        (intent_swapM account_id nonce nowMs busResp pubResp ti ai to_).2 →
      c.payload.deadlineMs = nowMs + 120000 := by
  intro c hs hmem
  unfold intent_swapM at hmem
  simp only [serializeReq, set_asset_in, set_asset_out, emptyIntentRequest] at hmem
  split at hmem
  · simp at hmem
  · split at hmem
    · simp at hmem
    · split at hmem
      · simp at hmem
      · split at hmem
        · simp at hmem
        · split at hmem
          · simp at hmem
          · simp only [List.mem_cons, List.not_mem_nil, or_false] at hmem
            rcases hmem with h1 | h2 | h3
            · exact absurd h1 (by simp)
            · exact absurd h2 (by simp)
            · rw [(Ev.publishCall.injEq _ _ _ _).mp h3 |>.1]
              rfl

/-- C1 counterexample: to_decimals does not return the exact
floor(amount * 10^decimals) for every amount on a supported asset.  NEAR
has 24 decimals, and for the amount 1.0 (a float that represents 1
exactly) the source computes int(1.0 * 10**24) =
999999999999999983222784, not 10^24 = 1000000000000000000000000: the
int 10**24 is itself rounded when converted to binary64, so the result
deviates from the exact floor already at the 17th significant digit. -/
theorem c1_counterexample :
    decimalsOf Token.NEAR = 24 ∧
    to_decimals (dOfInt 1) 24 = "999999999999999983222784" ∧
    to_decimals (dOfInt 1) 24 ≠ "1000000000000000000000000" :=
  ⟨rfl, by decide, by decide⟩

/-- C1 (amended): the two conversions cited by the specification do come
out exactly — to_decimals(1.5, 6 decimals) = "1500000" and
to_decimals(0.000001, 24 decimals) = "1000000000000000000" — but the
conversion is binary64 arithmetic, not exact decimal arithmetic, and in
general rounding artifacts can appear from the 17th significant digit
on (see the counterexample). -/
theorem c1_to_decimals_examples :
    to_decimals (dLit 3 2) (decimalsOf Token.USDC) = "1500000" ∧
    to_decimals (dLit 1 1000000) (decimalsOf Token.NEAR) = "1000000000000000000" :=
  ⟨by decide, by decide⟩

/-- C4 counterexample: fetch_options does raise on a malformed JSON
body.  The source calls response.json() with no try/except, so a non-200
response whose body is not JSON (body = none here) propagates
JSONDecodeError instead of returning the empty list. -/
theorem c4_counterexample :
    fetch_options ⟨404, none⟩ = .error Err.jsonDecodeError ∧
    fetch_options ⟨404, none⟩ ≠ .ok [] :=
  ⟨rfl, fun h => Except.noConfusion h⟩

/-- C4 (amended): fetch_options never consults the HTTP status code:
whenever the response body parses as JSON it returns the "result" list,
or the empty list when the key is absent (so a non-200 status with a
JSON body degrades to an empty-option result); but a malformed JSON body
raises JSONDecodeError rather than returning the empty list. -/
theorem c4_fetch_options_behavior :
    (∀ (status : Nat) (body : BodyJson),
      fetch_options ⟨status, some body⟩ = .ok (body.result.getD [])) ∧
    (∀ status : Nat, fetch_options ⟨status, none⟩ = .error Err.jsonDecodeError) :=
  ⟨fun _ _ => rfl, fun _ => rfl⟩

/-- C5 counterexample: serialize omits exact_amount_out even though an
output amount was supplied, when that amount is 0.0 — the source keeps
it with `to_decimals(amount, ...) if amount else None`, and 0.0 is falsy
in Python.  Here set_asset_out receives the amount float(0) and the
serialized message still has no exact_amount_out. -/
theorem c5_counterexample :
    (serializeReq (set_asset_out (set_asset_in emptyIntentRequest Token.NEAR
        (dOfInt 1)) Token.USDC (some (dOfInt 0)))).map SerMsg.exact_amount_out =
      .ok none := by
  rfl

/-- C5 (amended): serialize fails with the IncompleteRequest ValueError
iff asset_in or asset_out has not been set; when both are set through
the builder it returns the flat object with both defuse asset
identifiers, exact_amount_in, the default min_deadline_ms of 120000, and
exact_amount_out present exactly when a truthy (non-None and nonzero)
output amount was supplied. -/
theorem c5_serialize_shape :
    (∀ r : IntentRequestS,
      serializeReq r = .error Err.incompleteRequest ↔
        (r.asset_in = none ∨ r.asset_out = none)) ∧
    (∀ (ti : Token) (ai : D) (tout : Token) (ao : Option D),
      ∃ msg : SerMsg,
        serializeReq (set_asset_out (set_asset_in emptyIntentRequest ti ai)
          tout ao) = .ok msg ∧
        msg.defuse_asset_identifier_in = get_asset_id ti ∧
        msg.defuse_asset_identifier_out = get_asset_id tout ∧
        msg.exact_amount_in = to_decimals ai (decimalsOf ti) ∧
        msg.min_deadline_ms = 120000 ∧
        (msg.exact_amount_out.isSome = true ↔
          ∃ a, ao = some a ∧ deq a dZero = false)) := by
  constructor
  · intro r
    rcases r with ⟨md, ain, aout⟩
    cases ain <;> cases aout <;> simp [serializeReq]
  · intro ti ai tout ao
    cases ao with
    | none =>
      refine ⟨_, rfl, rfl, rfl, rfl, rfl, ?_⟩
      simp [set_asset_out]
    | some a =>
      by_cases hz : deq a dZero = true
      · refine ⟨_, rfl, rfl, rfl, rfl, rfl, ?_⟩
        simp [set_asset_out, hz]
      · refine ⟨_, rfl, rfl, rfl, rfl, rfl, ?_⟩
        have hz' : deq a dZero = false := by
          cases hq : deq a dZero
          · rfl
          · exact absurd hq hz
        simp [set_asset_out, hz']

/-- C9 counterexample: not every Quote built by the intent subsystem has
verifying_contract "intents.near" — the quote that intent_withdraw signs
and publishes carries verifying_contract "intents.testnet" (line 446 of
near_intents.py), shown here for a concrete USDC withdrawal on the
"near" network. -/
theorem c9_counterexample :
    (intent_withdraw 0 "alice.near" "n0" "bob.near" Token.USDC (dOfInt 1)
        "near").map (fun p => p.1.payload.verifying_contract) =
      .ok "intents.testnet" ∧
    "intents.testnet" ≠ "intents.near" :=
  ⟨rfl, by decide⟩

/-- C9 (amended): every Quote built by create_token_diff_quote (the swap
path) has verifying_contract "intents.near", while the Quote built by
intent_withdraw always has verifying_contract "intents.testnet". -/
theorem c9_verifying_contract :
    (∀ (acc nonce : String) (nowMs : Nat) (ti : Token) (ai : D)
        (to_ : Token) (ao : D),
      (create_token_diff_quote acc nonce nowMs ti ai to_ ao).payload.verifying_contract =
        "intents.near") ∧
    (∀ (nowMs : Nat) (acc nonce dest : String) (tok : Token) (amt : D),
      (intent_withdraw nowMs acc nonce dest tok amt "near").map
          (fun p => p.1.payload.verifying_contract) =
        .ok "intents.testnet") :=
  ⟨fun _ _ _ _ _ _ _ => rfl, fun _ _ _ _ _ _ => rfl⟩

/-- C2 counterexample: when the input and output tokens coincide, the
diff dict literal collapses (duplicate keys, later wins in Python), so
the quote does not map the input asset's identifier to the negated
base-unit input amount: for a NEAR-to-NEAR quote with amount_in 1.0 and
amount_out 2.0 the single token_diff carries only the positive output
amount, and the required negated entry is absent. -/
theorem c2_counterexample :
    (create_token_diff_quote "alice.near" "n0" 0 Token.NEAR (dOfInt 1)
        Token.NEAR (dOfInt 2)).payload.intents =
      [IntentS.tokenDiff
        [(get_asset_id Token.NEAR, to_decimals (dOfInt 2) (decimalsOf Token.NEAR))]] ∧
    to_decimals (dOfInt 2) (decimalsOf Token.NEAR) ≠
      "-" ++ to_decimals (dOfInt 1) (decimalsOf Token.NEAR) :=
  ⟨by decide, by decide⟩

/-- C2 (amended): for distinct input and output tokens,
create_token_diff_quote wraps a Quote with signer_id the account id,
verifying_contract "intents.near", deadline = creation time + 120000 ms,
and one token_diff Intent mapping the input asset's identifier to the
"-"-prefixed base-unit input amount and the output asset's identifier to
the positive base-unit amount derived from the accepted option's
amount_out (passed in by intent_swap from the selected option, not
re-derived from the request). -/
theorem c2_token_diff_quote_shape (acc nonce : String) (nowMs : Nat)
    (ti : Token) (ai : D) (to_ : Token) (ao : D) (h : ti ≠ to_) :
    create_token_diff_quote acc nonce nowMs ti ai to_ ao =
      { standard := "raw_ed25519"
        payload :=
          { nonce := nonce
            signer_id := acc
            verifying_contract := "intents.near"
            deadlineMs := nowMs + 120000
            intents := [IntentS.tokenDiff
              [(get_asset_id ti, "-" ++ to_decimals ai (decimalsOf ti)),
               (get_asset_id to_, to_decimals ao (decimalsOf to_))]] } } := by
  have hid : get_asset_id ti ≠ get_asset_id to_ := by
    cases ti <;> cases to_ <;> first
      | exact absurd rfl h
      | decide
  unfold create_token_diff_quote mkDict2
  rw [if_neg hid]

/-- C2 witness: the amended quote-shape theorem applied to a concrete
NEAR-to-USDC quote (amount_in 2.0 NEAR, accepted amount_out 2.01). -/
theorem c2_token_diff_quote_shape_witness :
    Token.NEAR ≠ Token.USDC ∧
    create_token_diff_quote "alice.near" "n0" 1700000000000 Token.NEAR
        (dOfInt 2) Token.USDC (dLit 201 100) =
      { standard := "raw_ed25519"
        payload :=
          { nonce := "n0"
            signer_id := "alice.near"
            verifying_contract := "intents.near"
            deadlineMs := 1700000000000 + 120000
            intents := [IntentS.tokenDiff
              [(get_asset_id Token.NEAR,
                "-" ++ to_decimals (dOfInt 2) (decimalsOf Token.NEAR)),
               (get_asset_id Token.USDC,
                to_decimals (dLit 201 100) (decimalsOf Token.USDC))]] } } :=
  ⟨by decide,
   c2_token_diff_quote_shape "alice.near" "n0" 1700000000000 Token.NEAR
     (dOfInt 2) Token.USDC (dLit 201 100) (by decide)⟩

/-- C3 counterexample: select_best_option does not always return the
first occurrence of the maximal amount_out.  With options
[empty object, object with only quote_hash "h"] both parse to
amount_out 0 (a tie), and the first occurrence of the maximum is the
first element; but `not best_option` is True for the falsy empty dict,
so the scan replaces it and returns the second element. -/
theorem c3_counterexample :
    select_best_option
        [⟨none, none, false⟩, ⟨none, some "h", false⟩] =
      some ⟨none, some "h", false⟩ ∧
    (⟨none, some "h", false⟩ : Opt) ≠ ⟨none, none, false⟩ ∧
    parseAmt ⟨none, none, false⟩ = parseAmt ⟨none, some "h", false⟩ :=
  ⟨by decide, by decide, by decide⟩

/-- C3 (amended): select_best_option returns none on the empty list; on
a non-empty list whose options are all non-empty objects (truthy dicts)
it returns the first occurrence of the option with maximal parsed
amount_out — everything before the result compares strictly smaller and
everything after compares less-or-equal, so first element wins all ties.
(An empty-object running best is instead replaced by the next option
regardless of amounts; see the counterexample.) -/
theorem c3_select_first_max :
    select_best_option [] = none ∧
    ∀ (b : Opt) (l : List Opt), (∀ o ∈ b :: l, otruthy o = true) →
      ∃ r l1 l2, select_best_option (b :: l) = some r ∧
        b :: l = l1 ++ r :: l2 ∧
        (∀ x ∈ l1, dval (parseAmt x) < dval (parseAmt r)) ∧
        (∀ x ∈ l2, dval (parseAmt x) ≤ dval (parseAmt r)) := by
  refine ⟨rfl, ?_⟩
  intro b l hall
  have hb : otruthy b = true := hall b (by simp)
  have hall' : ∀ o ∈ l, otruthy o = true := fun o ho => hall o (by simp [ho])
  have h0 : selStep none b = some b := rfl
  have hsel : select_best_option (b :: l) = some (gsel b l) := by
    simp only [select_best_option, List.foldl_cons, h0]
    exact foldl_selStep_truthy l b hb hall'
  obtain ⟨l1, l2, hdec, h1, h2⟩ := gsel_first_max l b
  exact ⟨gsel b l, l1, l2, hsel, hdec, h1, h2⟩

/-- C3 witness: for amount_out values [10, 25, 25, 5] (all options
non-empty objects) the scan selects the second element — the first
occurrence of the maximum, never the third — and the amended theorem
applies. -/
theorem c3_select_first_max_witness :
    ([⟨some (dOfInt 10), some "h1", false⟩, ⟨some (dOfInt 25), some "h2", false⟩,
      ⟨some (dOfInt 25), some "h3", false⟩, ⟨some (dOfInt 5), some "h4", false⟩] :
        List Opt).all otruthy = true ∧
    select_best_option
        [⟨some (dOfInt 10), some "h1", false⟩, ⟨some (dOfInt 25), some "h2", false⟩,
         ⟨some (dOfInt 25), some "h3", false⟩, ⟨some (dOfInt 5), some "h4", false⟩] =
      some ⟨some (dOfInt 25), some "h2", false⟩ ∧
    (∃ r l1 l2,
      select_best_option
          [⟨some (dOfInt 10), some "h1", false⟩, ⟨some (dOfInt 25), some "h2", false⟩,
           ⟨some (dOfInt 25), some "h3", false⟩, ⟨some (dOfInt 5), some "h4", false⟩] =
        some r ∧
      (⟨some (dOfInt 10), some "h1", false⟩ : Opt) ::
          [⟨some (dOfInt 25), some "h2", false⟩, ⟨some (dOfInt 25), some "h3", false⟩,
           ⟨some (dOfInt 5), some "h4", false⟩] = l1 ++ r :: l2 ∧
      (∀ x ∈ l1, dval (parseAmt x) < dval (parseAmt r)) ∧
      (∀ x ∈ l2, dval (parseAmt x) ≤ dval (parseAmt r))) :=
  ⟨by decide, by decide,
   c3_select_first_max.2 ⟨some (dOfInt 10), some "h1", false⟩
     [⟨some (dOfInt 25), some "h2", false⟩, ⟨some (dOfInt 25), some "h3", false⟩,
      ⟨some (dOfInt 5), some "h4", false⟩] (by decide)⟩

/-- C10 counterexample: a non-empty list whose options all lack
amount_out does not always yield its first element.  With
[empty, empty, object with quote_hash "h"], the falsy empty dicts are
each replaced by the next option, and the scan returns the third
element, not the first. -/
theorem c10_counterexample :
    ([⟨none, none, false⟩, ⟨none, none, false⟩, ⟨none, some "h", false⟩] :
        List Opt).all (fun o => o.amount_out.isNone) = true ∧
    select_best_option
        [⟨none, none, false⟩, ⟨none, none, false⟩, ⟨none, some "h", false⟩] =
      some ⟨none, some "h", false⟩ ∧
    (⟨none, some "h", false⟩ : Opt) ≠ ⟨none, none, false⟩ :=
  ⟨by decide, by decide, by decide⟩

/-- C10 (amended): an option without amount_out is parsed as 0 and never
replaces a running best whose amount_out is positive; and a non-empty
list whose options all lack amount_out yields the first truthy
(non-empty-object) option when one exists, and otherwise the last
element — in particular the first element whenever it is a non-empty
object. -/
theorem c10_missing_amount_out :
    (∀ (b o : Opt) (d : D), b.amount_out = some d → dlt dZero d = true →
      o.amount_out = none → selStep (some b) o = some b) ∧
    (∀ opts : List Opt, opts ≠ [] → (∀ o ∈ opts, o.amount_out = none) →
      select_best_option opts =
        (opts.find? otruthy).orElse (fun _ => opts.getLast?)) := by
  constructor
  · intro b o d hb hpos hom
    have htr : otruthy b = true := by simp [otruthy, hb]
    have hpb : parseAmt b = d := by simp [parseAmt, hb]
    have hpo : parseAmt o = dZero := by simp [parseAmt, hom]
    have h0 : (0 : ℚ) < dval d := by
      have hq := (dlt_iff _ _).mp hpos
      rwa [dval_dZero] at hq
    have hlt : dlt (parseAmt b) (parseAmt o) = false := by
      rw [hpb, hpo]
      cases hq : dlt d dZero
      · rfl
      · exfalso
        have hv := (dlt_iff _ _).mp hq
        rw [dval_dZero] at hv
        exact absurd hv (not_lt.mpr (le_of_lt h0))
    simp [selStep, htr, hlt]
  · exact fun opts => select_all_missing opts

/-- C10 witness: the step theorem applied to a positive best (amount_out
3.0) against a candidate lacking amount_out, and the all-lacking theorem
applied to a two-element list whose first element is a truthy object. -/
theorem c10_missing_amount_out_witness :
    ((⟨some (dOfInt 3), some "hb", false⟩ : Opt).amount_out = some (dOfInt 3)) ∧
    dlt dZero (dOfInt 3) = true ∧
    ((⟨none, some "ho", false⟩ : Opt).amount_out = none) ∧
    selStep (some ⟨some (dOfInt 3), some "hb", false⟩) ⟨none, some "ho", false⟩ =
      some ⟨some (dOfInt 3), some "hb", false⟩ ∧
    select_best_option [⟨none, some "h1", true⟩, ⟨none, none, false⟩] =
      (([⟨none, some "h1", true⟩, ⟨none, none, false⟩] :
          List Opt).find? otruthy).orElse
        (fun _ => ([⟨none, some "h1", true⟩, ⟨none, none, false⟩] :
          List Opt).getLast?) :=
  ⟨rfl, by decide, rfl,
   c10_missing_amount_out.1 ⟨some (dOfInt 3), some "hb", false⟩
     ⟨none, some "ho", false⟩ (dOfInt 3) rfl (by decide) rfl,
   c10_missing_amount_out.2 [⟨none, some "h1", true⟩, ⟨none, none, false⟩]
     (by decide) (by decide)⟩

/-- C7: whenever the requested amount exceeds the account's queried
balance under the source's comparison (`balance_near < amount_in`, with
balance_near the binary64 quotient float(state amount) / 10**24),
swap_near_to_token fails with the "Insufficient balance" ValueError and
its event trace is empty: no solver-bus call — neither a quote fetch nor
a publish — and no signing operation happens. -/
theorem c7_insufficient_balance_no_calls (acc nonce : String)
    (stateAmount : Nat) (busResp : BusHttpResp) (pubResp : String)
    (nowMs : Nat) (target : Token) (amount_in : D)
    (h : dlt (balanceNear stateAmount) amount_in = true) :
    swap_near_to_token acc nonce stateAmount busResp pubResp nowMs target
        amount_in =
      (.error Err.insufficientBalance, []) := by
  have hbal : (0 : ℚ) ≤ dval (balanceNear stateAmount) :=
    dval_nonneg _ (balanceNear_fst_nonneg _)
  have hamt : (0 : ℚ) < dval amount_in :=
    lt_of_le_of_lt hbal ((dlt_iff _ _).mp h)
  have hpos : dle amount_in dZero = false := by
    cases hq : dle amount_in dZero
    · rfl
    · exfalso
      have hv := (dle_iff _ _).mp hq
      rw [dval_dZero] at hv
      exact absurd hamt (not_lt.mpr hv)
  unfold swap_near_to_token
  simp [hpos, h]

/-- C7 witness: an account whose chain-reported balance is 0 yoctoNEAR
and a swap request of 1.0 NEAR fail immediately with
InsufficientBalance and an empty trace. -/
theorem c7_insufficient_balance_no_calls_witness :
    dlt (balanceNear 0) (dOfInt 1) = true ∧
    swap_near_to_token "alice.near" "n0" 0 ⟨200, some ⟨some []⟩⟩ "ok"
        1700000000000 Token.USDC (dOfInt 1) =
      (.error Err.insufficientBalance, []) :=
  ⟨by decide,
   c7_insufficient_balance_no_calls "alice.near" "n0" 0 ⟨200, some ⟨some []⟩⟩
     "ok" 1700000000000 Token.USDC (dOfInt 1) (by decide)⟩

/-- C8: when the solver bus returns an empty option list (and the
request passes the amount and balance checks, so the bus is actually
consulted), swap_near_to_token ends in the "No swap options available"
ValueError and its trace contains no signing operation and no
publish_intent call. -/
theorem c8_no_liquidity_no_sign_no_publish (acc nonce : String)
    (stateAmount : Nat) (busResp : BusHttpResp) (pubResp : String)
    (nowMs : Nat) (target : Token) (amount_in : D)
    (hpos : dle amount_in dZero = false)
    (hbal : dlt (balanceNear stateAmount) amount_in = false)
    (hopts : fetch_options busResp = .ok []) :
    (swap_near_to_token acc nonce stateAmount busResp pubResp nowMs target
        amount_in).1 = .error Err.noOptions ∧
    ((swap_near_to_token acc nonce stateAmount busResp pubResp nowMs target
        amount_in).2.all fun e => !evIsSign e && !evIsPublish e) = true := by
  unfold swap_near_to_token
  simp [hpos, hbal, hopts, serializeReq, set_asset_in, set_asset_out,
    emptyIntentRequest, evIsSign, evIsPublish]

/-- C8 witness: an account holding 10 NEAR (10^25 yoctoNEAR), a 2.0 NEAR
swap request, and a solver-bus response whose result list is empty. -/
theorem c8_no_liquidity_no_sign_no_publish_witness :
    dle (dOfInt 2) dZero = false ∧
    dlt (balanceNear (10 ^ 25)) (dOfInt 2) = false ∧
    fetch_options ⟨200, some ⟨some []⟩⟩ = .ok [] ∧
    (swap_near_to_token "alice.near" "n0" (10 ^ 25) ⟨200, some ⟨some []⟩⟩ "ok"
        1700000000000 Token.USDC (dOfInt 2)).1 = .error Err.noOptions ∧
    ((swap_near_to_token "alice.near" "n0" (10 ^ 25) ⟨200, some ⟨some []⟩⟩ "ok"
        1700000000000 Token.USDC (dOfInt 2)).2.all
      fun e => !evIsSign e && !evIsPublish e) = true := by
  refine ⟨by decide, by decide, rfl, ?_, ?_⟩
  · exact (c8_no_liquidity_no_sign_no_publish "alice.near" "n0" (10 ^ 25)
      ⟨200, some ⟨some []⟩⟩ "ok" 1700000000000 Token.USDC (dOfInt 2)
      (by decide) (by decide) rfl).1
  · exact (c8_no_liquidity_no_sign_no_publish "alice.near" "n0" (10 ^ 25)
      ⟨200, some ⟨some []⟩⟩ "ok" 1700000000000 Token.USDC (dOfInt 2)
      (by decide) (by decide) rfl).2

/-- C6 counterexample: no StaleQuote rejection exists anywhere in the
subsystem.  intent_withdraw signs a quote whose deadline is the
hardcoded instant 2025-12-31T11:59:59Z; executed at epoch-millisecond
1767182400000 (2025-12-31T12:00:00Z, or any later instant such as
today), the deadline already lies in the past at signing time, yet the
signed quote is still published to the solver bus instead of being
rejected. -/
theorem c6_counterexample :
    publishesStale
        (intent_withdraw 1767182400000 "alice.near" "n0" "bob.near" Token.USDC
          (dOfInt 1) "near")
        1767182400000 = true := by
  decide

/-- C6 (amended): the swap path never produces a stale quote at signing
time — every commitment published by swap_near_to_token carries the
deadline nowMs + 120000, strictly in the future of the signing instant
nowMs — but this is by construction of the deadline, not by any
StaleQuote check; the withdraw path shows no such check exists (see the
counterexample). -/
theorem c6_swap_deadline_fresh (acc nonce : String) (stateAmount : Nat)
    (busResp : BusHttpResp) (pubResp : String) (nowMs : Nat)
    (target : Token) (amount_in : D) :
    ∀ c hs, Ev.publishCall c hs ∈
        (swap_near_to_token acc nonce stateAmount busResp pubResp nowMs target
          amount_in).2 →
      c.payload.deadlineMs = nowMs + 120000 ∧ nowMs < c.payload.deadlineMs := by
  intro c hs hmem
  have hd : c.payload.deadlineMs = nowMs + 120000 := by
    unfold swap_near_to_token at hmem
    simp only [serializeReq, set_asset_in, set_asset_out,
      emptyIntentRequest] at hmem
    split at hmem
    · simp at hmem
    · split at hmem
      · simp at hmem
      · split at hmem
        · simp at hmem
        · split at hmem
          · simp at hmem
          · rcases List.mem_cons.mp hmem with habs | hmem'
            · exact absurd habs (by simp)
            · exact intent_swapM_publish_fresh acc nonce nowMs busResp
                pubResp .NEAR amount_in target c hs hmem'
  exact ⟨hd, by omega⟩

/-- C6 witness: a complete successful swap run (balance 10 NEAR, swap
2.0 NEAR to USDC, solver options with amount_out 1.98 and 2.01) whose
trace contains a publish of the commitment quoting 2.01; its deadline is
the signing instant plus 120000 ms, in the future at signing time. -/
theorem c6_swap_deadline_fresh_witness :
    Ev.publishCall
        (create_token_diff_quote "alice.near" "n0" 1700000000000 Token.NEAR
          (dOfInt 2) Token.USDC (dLit 201 100)) ["h2"] ∈
      (swap_near_to_token "alice.near" "n0" (10 ^ 25)
        ⟨200, some ⟨some [⟨some (dLit 198 100), some "h1", false⟩,
          ⟨some (dLit 201 100), some "h2", false⟩]⟩⟩ "ok" 1700000000000
        Token.USDC (dOfInt 2)).2 ∧
    ((create_token_diff_quote "alice.near" "n0" 1700000000000 Token.NEAR
        (dOfInt 2) Token.USDC (dLit 201 100)).payload.deadlineMs =
      1700000000000 + 120000 ∧
    1700000000000 <
      (create_token_diff_quote "alice.near" "n0" 1700000000000 Token.NEAR
        (dOfInt 2) Token.USDC (dLit 201 100)).payload.deadlineMs) :=
  ⟨by decide,
   c6_swap_deadline_fresh "alice.near" "n0" (10 ^ 25)
     ⟨200, some ⟨some [⟨some (dLit 198 100), some "h1", false⟩,
       ⟨some (dLit 201 100), some "h2", false⟩]⟩⟩ "ok" 1700000000000
     Token.USDC (dOfInt 2)
     (create_token_diff_quote "alice.near" "n0" 1700000000000 Token.NEAR
       (dOfInt 2) Token.USDC (dLit 201 100)) ["h2"] (by decide)⟩
